import Mathlib

/-!
Shallow embedding of the persistence layer and ledger model of
`real_estate_ledger.py` (a Streamlit expense-ledger app with optional
Supabase remote storage and a local JSON-file fallback).

The Python session value `st.session_state.properties` is a dict mapping
property names to ordered lists of expense records; we model it as an
association list `PropMap`, which preserves insertion order exactly as a
Python dict does.  Persisted documents are the JSON objects written by
`save_user_data` ( `{"username": ..., "properties": ...}` ); the JSON
text round trip (`json.dump` / `json.load`) is the identity on such
trees, so documents are modelled structurally.  Remote/local backend
calls are modelled by environments describing what the backend would
answer (rows returned, exception raised, file present, write failing),
and the coordinator functions additionally return the list of backend
effects they performed, so that frame properties ("Local was not
consulted", "no local write happened") are statable.
-/

namespace RealEstateLedger

/-- The default property name `"默认房产"` used throughout the source. -/
def defaultPropertyName : String := "默认房产"

/-- One expense record, as built by the expense-form submit handler
(lines 246–251): date string, category (费用类型), amount (金额, a
decimal number, modelled as `Rat`), and a free-text note (描述). -/
structure ExpenseRecord where
  date : String
  category : String
  amount : Rat
  note : String
deriving Repr, DecidableEq

/-- The session `properties` mapping: property name → ordered expense
list, in insertion order (Python dicts preserve insertion order). -/
abbrev PropMap := List (String × List ExpenseRecord)

/-- A persisted document, as written by `save_user_data`:
`{"username": ..., "properties": ...}`.  `propertiesField = none`
models a JSON object with no `"properties"` key. -/
structure Document where
  username : String
  propertiesField : Option PropMap
deriving Repr, DecidableEq

/-- The value stored in the remote `data` jsonb column: either a JSON
object (a `Document`) or some non-dict JSON value
(`isinstance(remote, dict)` is false). -/
inductive RemoteVal where
  | dict (d : Document)
  | nonDict
deriving Repr, DecidableEq

/-- One row of the remote query response.  A well-formed row is a dict
whose `"data"` key holds the stored value (`.get("data")` yields `none`
when the key is absent or null); `nonDictRow` models a non-dict row
(`isinstance(data_rows[0], dict)` false). -/
inductive Row where
  | dictRow (data : Option RemoteVal)
  | nonDictRow
deriving Repr, DecidableEq

/-- What the remote backend does when `load_user_data_remote` runs its
`try` block: either the select succeeds with a list of rows (empty list
= key absent, i.e. NotFound), or some step (client construction,
transport, auth, server) raises an exception with message `e`. -/
inductive RemoteResponse where
  | success (rows : List Row)
  | raise (e : String)
deriving Repr, DecidableEq

/-- What the remote backend does when `save_user_data_remote` runs its
`try` block: the upsert succeeds, or an exception is raised. -/
inductive RemoteSaveResponse where
  | success
  | raise (e : String)
deriving Repr, DecidableEq

/-- `load_user_data_remote` (lines 47–60): select rows for the
username; if a first row exists and is a dict, return its `"data"`
value; on any exception, show an error and return `None`; otherwise
return `None`.  Total: every outcome, including a raised exception, is
converted to an `Option RemoteVal`. -/
def load_user_data_remote (resp : RemoteResponse) : Option RemoteVal :=
  match resp with
  | .raise _ => none
  | .success rows =>
    match rows with
    | [] => none
    | r :: _ =>
      match r with
      | .dictRow data => data
      | .nonDictRow => none

/-- `save_user_data_remote` (lines 63–72): upsert; return `True` on
success; on any exception, show an error and return `False`. -/
def save_user_data_remote (resp : RemoteSaveResponse) : Bool :=
  match resp with
  | .success => true
  | .raise _ => false

/-- The "heal on read" normalization (lines 92–93 and 103–104):
`if not st.session_state.properties: st.session_state.properties =
{"默认房产": []}`. -/
def healProps (m : PropMap) : PropMap :=
  if m = [] then [(defaultPropertyName, [])] else m

/-- Decoding a remote `data` value (lines 91–94):
`remote.get("properties", {}) if isinstance(remote, dict) else
{"默认房产": []}`, then heal if empty. -/
def decodeRemoteVal (remote : RemoteVal) : PropMap :=
  healProps
    (match remote with
     | .dict d => d.propertiesField.getD []
     | .nonDict => [(defaultPropertyName, [])])

/-- The local-file part of `load_user_data` (lines 97–106):
if the user's file exists, `data.get("properties", {})` healed if
empty; otherwise the default singleton. -/
def load_local (localFile : Option Document) : PropMap :=
  match localFile with
  | some d => healProps (d.propertiesField.getD [])
  | none => [(defaultPropertyName, [])]

/-- A backend interaction performed by the coordinator. -/
inductive Effect where
  | remoteLoad (username : String)
  | localLoad (username : String)
  | remoteUpsert (username : String) (d : Document)
  | localWrite (username : String) (d : Document)
deriving Repr, DecidableEq

/-- The environment of one `load_user_data` call: whether
`_has_remote_config()` holds, what the remote backend would answer,
and the content of `user_data/{username}.json` (`none` = file absent). -/
structure LoadEnv where
  remoteConfigured : Bool
  remoteResp : RemoteResponse
  localFile : Option Document
deriving Repr

/-- `load_user_data` (lines 77–106).  Returns the resulting
`st.session_state.properties` value together with the list of backend
interactions performed.  Empty username (falsy) short-circuits to the
default singleton without touching any backend. -/
def load_user_data (username : String) (env : LoadEnv) :
    PropMap × List Effect :=
  if username = "" then ([(defaultPropertyName, [])], [])
  else if env.remoteConfigured then
    match load_user_data_remote env.remoteResp with
    | some remote => (decodeRemoteVal remote, [Effect.remoteLoad username])
    | none =>
      (load_local env.localFile,
       [Effect.remoteLoad username, Effect.localLoad username])
  else (load_local env.localFile, [Effect.localLoad username])

/-- The document built by `save_user_data` (lines 115–118):
`{"username": username, "properties": st.session_state.properties}`. -/
def encodeDoc (username : String) (props : PropMap) : Document :=
  ⟨username, some props⟩

/-- The environment of one `save_user_data` call: remote configuration,
the remote backend's behaviour for the upsert, and whether the local
file write would raise an IOError (`some e` = open/write raises `e`). -/
structure SaveEnv where
  remoteConfigured : Bool
  remoteResp : RemoteSaveResponse
  localIOError : Option String
deriving Repr

/-- `save_user_data` (lines 109–132).  Returns the backend effects
performed and the user-visible error message shown by the local
`except` clause (`none` when no local error was shown).  Empty
username returns immediately; remote success returns without local
write; otherwise the local write runs, with any exception caught and
converted into an error message (the function always returns). -/
def save_user_data (username : String) (props : PropMap) (env : SaveEnv) :
    List Effect × Option String :=
  if username = "" then ([], none)
  else
    let data := encodeDoc username props
    let localPart : List Effect × Option String :=
      match env.localIOError with
      | none => ([Effect.localWrite username data], none)
      | some e => ([], some ("本地保存数据失败: " ++ e))
    if env.remoteConfigured then
      if save_user_data_remote env.remoteResp then
        ([Effect.remoteUpsert username data], none)
      else localPart
    else localPart

/-- The local file store: username → stored document. -/
abbrev LocalStore := List (String × Document)

/-- The remote `ledgers` store: username → stored `data` value. -/
abbrev RemoteStore := List (String × RemoteVal)

/-- Keyed upsert into an association-list store: replace in place if
the key is present, else append (Python dict-assignment semantics). -/
def upsertStore {α : Type} (store : List (String × α)) (k : String) (v : α) :
    List (String × α) :=
  if store.any (fun p => p.1 == k) then
    store.map (fun p => if p.1 == k then (k, v) else p)
  else store ++ [(k, v)]

/-- How one effect changes the local file store. -/
def applyEffectLocal (store : LocalStore) : Effect → LocalStore
  | .localWrite u d => upsertStore store u d
  | _ => store

/-- How a list of effects changes the local file store. -/
def applyEffectsLocal (store : LocalStore) (es : List Effect) : LocalStore :=
  es.foldl applyEffectLocal store

/-- How one effect changes the remote store. -/
def applyEffectRemote (store : RemoteStore) : Effect → RemoteStore
  | .remoteUpsert u d => upsertStore store u (RemoteVal.dict d)
  | _ => store

/-- How a list of effects changes the remote store. -/
def applyEffectsRemote (store : RemoteStore) (es : List Effect) : RemoteStore :=
  es.foldl applyEffectRemote store

/-! ## The in-memory ledger: encode/decode as seen by the coordinator -/

/-- A user's in-memory ledger: the session username together with the
session `properties` mapping. -/
structure Ledger where
  username : String
  properties : PropMap
deriving Repr, DecidableEq

/-- Encoding a ledger into the persisted document, as `save_user_data`
does (lines 115–118). -/
def encodeLedger (L : Ledger) : Document :=
  ⟨L.username, some L.properties⟩

/-- Decoding a persisted document back into a ledger, as the load path
does (lines 100–104): the `properties` value is `.get("properties", {})`
healed if empty; the username is the document's `username` field. -/
def decodeLedger (d : Document) : Ledger :=
  ⟨d.username, healProps (d.propertiesField.getD [])⟩

/-! ## Session state and the UI-driven ledger-model operations -/

/-- The per-session mutable state the handlers act on:
`st.session_state.properties` and `st.session_state.current_property`. -/
structure Session where
  properties : PropMap
  currentProperty : String
deriving Repr, DecidableEq

/-- Python `k in properties`. -/
def containsKey (m : PropMap) (k : String) : Bool :=
  m.any (fun p => p.1 == k)

/-- Python `properties.get(k, [])` (line 211). -/
def lookupPropD (m : PropMap) (k : String) : List ExpenseRecord :=
  ((m.find? (fun p => p.1 == k)).map (·.2)).getD []

/-- Python `properties[k] = v`: replace in place when the key exists,
else append at the end (dict insertion-order semantics). -/
def setProp (m : PropMap) (k : String) (v : List ExpenseRecord) : PropMap :=
  if containsKey m k then
    m.map (fun p => if p.1 == k then (k, v) else p)
  else m ++ [(k, v)]

/-- Python `list(properties.keys())[0]`, totalized with a junk default
(the source only evaluates it on a non-empty dict). -/
def firstKey (m : PropMap) : String :=
  (m.head?.map (·.1)).getD defaultPropertyName

/-- The session state right after login (lines 151–157): run
`load_user_data`, then point `current_property` at the first key if
`properties` is non-empty (otherwise it keeps the pre-login default
`"默认房产"` set at line 142). -/
def initialSession (username : String) (env : LoadEnv) : Session :=
  let props := (load_user_data username env).1
  { properties := props
    currentProperty := if props.isEmpty then defaultPropertyName else firstKey props }

/-- The per-rerun property-selection block (lines 176–185): when
`properties` is non-empty, `current_property` becomes the selectbox
choice (always one of the existing keys — the selectbox only offers
`property_names`, which the `containsKey` guard models); when it is
empty, a default property is materialized. -/
def normalizeSelect (s : Session) (choice : String) : Session :=
  if s.properties.isEmpty then
    { properties := setProp s.properties defaultPropertyName []
      currentProperty := defaultPropertyName }
  else if containsKey s.properties choice then
    { s with currentProperty := choice }
  else s

/-- The add-property form handler (lines 188–199): runs only with a
non-empty name; inserts an empty property and saves when the name is
new, otherwise warns and leaves the state unchanged.  The boolean is
whether `save_user_data` was triggered. -/
def addProperty (s : Session) (name : String) : Session × Bool :=
  if name = "" then (s, false)
  else if containsKey s.properties name then (s, false)
  else ({ s with properties := setProp s.properties name [] }, true)

/-- The delete-property button handler (lines 202–208): the button only
exists when `len(properties) > 1`; it deletes the current property,
repoints `current_property` to the first remaining key and saves.
`none` models the operation being unavailable (the singleton case):
the state is unchanged. -/
def removeCurrentProperty (s : Session) : Option Session :=
  if 1 < s.properties.length then
    let props := s.properties.eraseP (fun p => p.1 == s.currentProperty)
    some { properties := props, currentProperty := firstKey props }
  else none

/-- Lines 253–254: `if current not in properties: properties[current] = []`. -/
def ensureCurrent (s : Session) : PropMap :=
  if containsKey s.properties s.currentProperty then s.properties
  else setProp s.properties s.currentProperty []

/-- The expense-form submit handler (lines 237–259): with
`amount > 0`, ensure the current property key exists (lines 253–254),
append the record at the end of its list (line 255) and save;
otherwise show `金额必须大于0` and change nothing.  The boolean is
whether `save_user_data` was triggered. -/
def addExpense (s : Session) (r : ExpenseRecord) : Session × Bool :=
  if 0 < r.amount then
    ({ s with properties := (setProp (ensureCurrent s) s.currentProperty
        (lookupPropD (ensureCurrent s) s.currentProperty ++ [r])) }, true)
  else (s, false)

/-- The per-row delete button (lines 288–292): pops index `i` from the
current property's list and saves; buttons only exist for indices of
`current_expenses = properties.get(current_property, [])`. -/
def removeExpenseAt (s : Session) (i : Nat) : Session × Bool :=
  if i < (lookupPropD s.properties s.currentProperty).length then
    ({ s with properties := (setProp s.properties s.currentProperty
        ((lookupPropD s.properties s.currentProperty).eraseIdx i)) }, true)
  else (s, false)

/-- The clear-all button (lines 347–351): shown only when
`current_expenses` is non-empty; empties the current property's list
and saves. -/
def clearCurrent (s : Session) : Session × Bool :=
  if (lookupPropD s.properties s.currentProperty).isEmpty then (s, false)
  else ({ s with properties := setProp s.properties s.currentProperty [] }, true)

/-- The session states reachable in a logged-in session: the post-login
state for some non-empty username and backend environment, closed under
the per-rerun selection block and the five mutation handlers. -/
inductive Reachable : Session → Prop where
  | init (u : String) (env : LoadEnv) (hu : u ≠ "") :
      Reachable (initialSession u env)
  | select {s : Session} (choice : String) :
      Reachable s → Reachable (normalizeSelect s choice)
  | addProp {s : Session} (name : String) :
      Reachable s → Reachable (addProperty s name).1
  | removeProp {s s' : Session} :
      Reachable s → removeCurrentProperty s = some s' → Reachable s'
  | addExp {s : Session} (r : ExpenseRecord) :
      Reachable s → Reachable (addExpense s r).1
  | removeExp {s : Session} (i : Nat) :
      Reachable s → Reachable (removeExpenseAt s i).1
  | clearCur {s : Session} :
      Reachable s → Reachable (clearCurrent s).1

/-! ## Basic lemmas about the embedded operations -/

theorem healProps_ne_nil (m : PropMap) : healProps m ≠ [] := by
  unfold healProps
  split
  · simp
  · assumption

theorem load_local_ne_nil (lf : Option Document) : load_local lf ≠ [] := by
  cases lf with
  | none => simp [load_local]
  | some d => exact healProps_ne_nil _

theorem decodeRemoteVal_ne_nil (rv : RemoteVal) : decodeRemoteVal rv ≠ [] :=
  healProps_ne_nil _

theorem load_user_data_ne_nil (u : String) (env : LoadEnv) :
    (load_user_data u env).1 ≠ [] := by
  unfold load_user_data
  split
  · simp
  · split
    · cases hres : load_user_data_remote env.remoteResp with
      | some rv => simpa [hres] using decodeRemoteVal_ne_nil rv
      | none => simpa [hres] using load_local_ne_nil env.localFile
    · simpa using load_local_ne_nil env.localFile

theorem containsKey_firstKey {m : PropMap} (h : m ≠ []) :
    containsKey m (firstKey m) = true := by
  cases m with
  | nil => exact absurd rfl h
  | cons p t => simp [containsKey, firstKey]

theorem containsKey_map_update (m : PropMap) (k : String)
    (v : List ExpenseRecord) (k' : String) :
    containsKey (m.map (fun p => if p.1 == k then (k, v) else p)) k'
      = containsKey m k' := by
  induction m with
  | nil => rfl
  | cons q t ih =>
    unfold containsKey at ih ⊢
    simp only [List.map_cons, List.any_cons]
    have hhead : ((if q.1 == k then (k, v) else q).1 == k') = (q.1 == k') := by
      by_cases h : q.1 = k
      · subst h; simp
      · simp [beq_eq_false_iff_ne.mpr h]
    rw [hhead, ih]

theorem containsKey_setProp_self (m : PropMap) (k : String)
    (v : List ExpenseRecord) : containsKey (setProp m k v) k = true := by
  unfold setProp
  split
  · rw [containsKey_map_update]; assumption
  · simp [containsKey]

theorem containsKey_setProp_of (m : PropMap) (k : String)
    (v : List ExpenseRecord) (k' : String) (h : containsKey m k' = true) :
    containsKey (setProp m k v) k' = true := by
  unfold setProp
  split
  · rw [containsKey_map_update]; exact h
  · unfold containsKey at h ⊢
    simp only [List.any_append, h, Bool.true_or]

theorem length_le_length_setProp (m : PropMap) (k : String)
    (v : List ExpenseRecord) : m.length ≤ (setProp m k v).length := by
  unfold setProp
  split
  · simp
  · simp

theorem find?_map_update_self (m : PropMap) (k : String)
    (v : List ExpenseRecord) :
    ((m.map (fun p => if p.1 == k then (k, v) else p)).find?
        (fun p => p.1 == k))
      = (if containsKey m k then some (k, v) else none) := by
  induction m with
  | nil => rfl
  | cons q t ih =>
    by_cases h : q.1 = k
    · subst h
      simp [containsKey, List.find?_cons, ih]
    · have hb : (q.1 == k) = false := beq_eq_false_iff_ne.mpr h
      simp only [containsKey, List.map_cons, List.any_cons, List.find?_cons,
        hb, if_neg, Bool.false_or] at ih ⊢
      simpa [hb] using ih

theorem find?_eq_none_of_not_containsKey (m : PropMap) (k : String)
    (h : containsKey m k = false) :
    m.find? (fun p => p.1 == k) = none := by
  unfold containsKey at h
  rw [List.find?_eq_none]
  intro x hx
  have hall := List.any_eq_false.mp h
  simpa using hall x hx

theorem lookupPropD_setProp_self (m : PropMap) (k : String)
    (v : List ExpenseRecord) : lookupPropD (setProp m k v) k = v := by
  unfold setProp lookupPropD
  split
  case isTrue h => rw [find?_map_update_self, if_pos h]; rfl
  case isFalse h =>
    rw [List.find?_append,
      find?_eq_none_of_not_containsKey m k (Bool.eq_false_iff.mpr h)]
    simp [List.find?_cons]

theorem lookupPropD_eq_nil_of_not_containsKey (m : PropMap) (k : String)
    (h : containsKey m k = false) : lookupPropD m k = [] := by
  unfold lookupPropD
  rw [find?_eq_none_of_not_containsKey m k h]
  rfl

/-- The session invariant: at least one property, and the current
property pointer references a key actually present. -/
def SessionInv (s : Session) : Prop :=
  1 ≤ s.properties.length
  ∧ containsKey s.properties s.currentProperty = true

theorem sessionInv_init (u : String) (env : LoadEnv) :
    SessionInv (initialSession u env) := by
  have hne := load_user_data_ne_nil u env
  constructor
  · exact List.length_pos.mpr hne
  · unfold initialSession
    simp only
    rw [if_neg (by simpa [List.isEmpty_iff] using hne)]
    exact containsKey_firstKey hne

theorem sessionInv_select {s : Session} (choice : String)
    (ih : SessionInv s) : SessionInv (normalizeSelect s choice) := by
  unfold normalizeSelect
  split
  case isTrue hemp =>
    have : s.properties = [] := List.isEmpty_iff.mp hemp
    constructor
    · simp [this, setProp, containsKey]
    · simp only
      rw [this]
      exact containsKey_setProp_self [] _ _
  case isFalse hemp =>
    split
    case isTrue hc => exact ⟨ih.1, hc⟩
    case isFalse => exact ih

theorem sessionInv_addProperty {s : Session} (name : String)
    (ih : SessionInv s) : SessionInv (addProperty s name).1 := by
  unfold addProperty
  split
  · exact ih
  · split
    · exact ih
    · exact ⟨le_trans ih.1 (length_le_length_setProp _ _ _),
        containsKey_setProp_of _ _ _ _ ih.2⟩

theorem sessionInv_removeCurrent {s s' : Session}
    (hrem : removeCurrentProperty s = some s') (ih : SessionInv s) :
    SessionInv s' := by
  unfold removeCurrentProperty at hrem
  split at hrem
  case isTrue hlen =>
    injection hrem with hs'
    obtain ⟨pair, hmem, hpair⟩ := List.any_eq_true.mp ih.2
    have hlen' :
        (s.properties.eraseP (fun p => p.1 == s.currentProperty)).length + 1
          = s.properties.length :=
      List.length_eraseP_add_one hmem hpair
    have hge : 1 ≤ (s.properties.eraseP
        (fun p => p.1 == s.currentProperty)).length := by omega
    have hne : s.properties.eraseP (fun p => p.1 == s.currentProperty) ≠ [] :=
      List.length_pos.mp hge
    constructor
    · rw [← hs']; exact hge
    · rw [← hs']; exact containsKey_firstKey hne
  case isFalse => exact absurd hrem (by simp)

theorem containsKey_ensureCurrent (s : Session) :
    containsKey (ensureCurrent s) s.currentProperty = true := by
  unfold ensureCurrent
  split
  case isTrue h => exact h
  case isFalse h => exact containsKey_setProp_self _ _ _

theorem length_le_ensureCurrent (s : Session) :
    s.properties.length ≤ (ensureCurrent s).length := by
  unfold ensureCurrent
  split
  · exact le_refl _
  · exact length_le_length_setProp _ _ _

theorem lookupPropD_ensureCurrent (s : Session) :
    lookupPropD (ensureCurrent s) s.currentProperty
      = lookupPropD s.properties s.currentProperty := by
  unfold ensureCurrent
  split
  case isTrue h => rfl
  case isFalse h =>
    rw [lookupPropD_setProp_self, lookupPropD_eq_nil_of_not_containsKey
      s.properties s.currentProperty (Bool.eq_false_iff.mpr h)]

theorem sessionInv_addExpense {s : Session} (r : ExpenseRecord)
    (ih : SessionInv s) : SessionInv (addExpense s r).1 := by
  unfold addExpense
  split
  · exact ⟨le_trans (le_trans ih.1 (length_le_ensureCurrent s))
        (length_le_length_setProp _ _ _),
      containsKey_setProp_of _ _ _ _ (containsKey_ensureCurrent s)⟩
  · exact ih

theorem sessionInv_removeExpenseAt {s : Session} (i : Nat)
    (ih : SessionInv s) : SessionInv (removeExpenseAt s i).1 := by
  unfold removeExpenseAt
  split
  · exact ⟨le_trans ih.1 (length_le_length_setProp _ _ _),
      containsKey_setProp_of _ _ _ _ ih.2⟩
  · exact ih

theorem sessionInv_clearCurrent {s : Session} (ih : SessionInv s) :
    SessionInv (clearCurrent s).1 := by
  unfold clearCurrent
  split
  · exact ih
  · exact ⟨le_trans ih.1 (length_le_length_setProp _ _ _),
      containsKey_setProp_of _ _ _ _ ih.2⟩

theorem reachable_sessionInv {s : Session} (h : Reachable s) :
    SessionInv s := by
  induction h with
  | init u env hu => exact sessionInv_init u env
  | select choice _ ih => exact sessionInv_select choice ih
  | addProp name _ ih => exact sessionInv_addProperty name ih
  | removeProp _ hrem ih => exact sessionInv_removeCurrent hrem ih
  | addExp r _ ih => exact sessionInv_addExpense r ih
  | removeExp i _ ih => exact sessionInv_removeExpenseAt i ih
  | clearCur _ ih => exact sessionInv_clearCurrent ih

/-! ## Claim theorems -/

/-- Claim C1, counterexample.  The claim says that when Remote is
configured and `Remote.load` reports NotFound (an empty row list, no
exception), `load_user_data` does not consult the Local backend.  In
the code, `load_user_data_remote` returns `None` for NotFound exactly
as it does for a remote error, and `load_user_data` then falls through
to the local file: with the remote NotFound and a local file present
for `"alice"`, the Local backend is consulted and its document
determines the result. -/
theorem remote_notfound_falls_through_cex :
    Effect.localLoad "alice" ∈
      (load_user_data "alice"
        ⟨true, RemoteResponse.success [],
          some ⟨"alice", some [("房A", [])]⟩⟩).2
    ∧ (load_user_data "alice"
        ⟨true, RemoteResponse.success [],
          some ⟨"alice", some [("房A", [])]⟩⟩).1
      = [("房A", [])] := by
  decide

/-- Claim C1, amended: when Remote is configured and `Remote.load`
reports NotFound (empty row list, no transport error),
`load_user_data` treats it exactly like a remote failure: it falls
through to the Local backend, consulting `Local.load`, and the Local
backend determines the result. -/
theorem remote_notfound_falls_through (u : String) (hu : u ≠ "")
    (lf : Option Document) :
    load_user_data u ⟨true, RemoteResponse.success [], lf⟩
      = (load_local lf, [Effect.remoteLoad u, Effect.localLoad u]) := by
  unfold load_user_data
  rw [if_neg hu]
  rfl

/-- Witness for the amended Claim C1 at username `"alice"` with no
local file. -/
theorem remote_notfound_falls_through_witness :
    load_user_data "alice" ⟨true, RemoteResponse.success [], none⟩
      = (load_local none,
         [Effect.remoteLoad "alice", Effect.localLoad "alice"]) :=
  remote_notfound_falls_through "alice" (by decide) none

/-- Claim C2: with a non-empty username, Remote configured and the
remote upsert succeeding, `save_user_data` performs exactly the remote
upsert — no local write effect — and the local file store is unchanged
by the operation. -/
theorem save_remote_success_no_local_write (u : String) (hu : u ≠ "")
    (props : PropMap) (ioe : Option String) (store : LocalStore) :
    save_user_data u props ⟨true, RemoteSaveResponse.success, ioe⟩
        = ([Effect.remoteUpsert u (encodeDoc u props)], none)
      ∧ applyEffectsLocal store
          (save_user_data u props ⟨true, RemoteSaveResponse.success, ioe⟩).1
        = store := by
  have h : save_user_data u props ⟨true, RemoteSaveResponse.success, ioe⟩
      = ([Effect.remoteUpsert u (encodeDoc u props)], none) := by
    unfold save_user_data
    rw [if_neg hu]
    cases ioe <;> rfl
  exact ⟨h, by rw [h]; rfl⟩

/-- Witness for Claim C2 at username `"alice"` with a singleton ledger
and an empty local store. -/
theorem save_remote_success_no_local_write_witness :
    save_user_data "alice" [(defaultPropertyName, [])]
        ⟨true, RemoteSaveResponse.success, none⟩
        = ([Effect.remoteUpsert "alice"
            (encodeDoc "alice" [(defaultPropertyName, [])])], none)
      ∧ applyEffectsLocal []
          (save_user_data "alice" [(defaultPropertyName, [])]
            ⟨true, RemoteSaveResponse.success, none⟩).1
        = [] :=
  save_remote_success_no_local_write "alice" (by decide)
    [(defaultPropertyName, [])] none []

/-- Claim C3: with a non-empty username, Remote configured but the
remote upsert raising an error, `save_user_data` proceeds to write the
document to the Local backend; if that local write itself raises an
IOError, the failure is converted into a user-visible error message —
the function still returns a value, so the process is not
terminated. -/
theorem save_remote_failure_writes_local (u : String) (hu : u ≠ "")
    (props : PropMap) (e : String) :
    save_user_data u props ⟨true, RemoteSaveResponse.raise e, none⟩
        = ([Effect.localWrite u (encodeDoc u props)], none)
      ∧ ∀ ioe : String,
          save_user_data u props ⟨true, RemoteSaveResponse.raise e, some ioe⟩
            = ([], some ("本地保存数据失败: " ++ ioe)) := by
  constructor
  · unfold save_user_data
    rw [if_neg hu]
    rfl
  · intro ioe
    unfold save_user_data
    rw [if_neg hu]
    rfl

/-- Witness for Claim C3 at username `"alice"`, remote raising
`"timeout"`, with the local write once succeeding and once raising
`"disk full"`. -/
theorem save_remote_failure_writes_local_witness :
    save_user_data "alice" [(defaultPropertyName, [])]
        ⟨true, RemoteSaveResponse.raise "timeout", none⟩
        = ([Effect.localWrite "alice"
            (encodeDoc "alice" [(defaultPropertyName, [])])], none)
      ∧ save_user_data "alice" [(defaultPropertyName, [])]
          ⟨true, RemoteSaveResponse.raise "timeout", some "disk full"⟩
        = ([], some ("本地保存数据失败: " ++ "disk full")) :=
  ⟨(save_remote_failure_writes_local "alice" (by decide)
      [(defaultPropertyName, [])] "timeout").1,
   (save_remote_failure_writes_local "alice" (by decide)
      [(defaultPropertyName, [])] "timeout").2 "disk full"⟩

/-- Claim C4: a persisted document whose `properties` mapping is
absent (`none`) or empty (`some []`) decodes, during load, to a ledger
with exactly one default-named property holding an empty expense list;
this holds both on the remote-load path and on the local-load path. -/
theorem decode_absent_or_empty_properties_heals (u : String) (hu : u ≠ "")
    (d : Document)
    (hd : d.propertiesField = none ∨ d.propertiesField = some [])
    (lf : Option Document) (rr : RemoteResponse) :
    (load_user_data u
        ⟨true, RemoteResponse.success [Row.dictRow (some (RemoteVal.dict d))],
          lf⟩).1
        = [(defaultPropertyName, [])]
      ∧ (load_user_data u ⟨false, rr, some d⟩).1
        = [(defaultPropertyName, [])] := by
  have hdec : healProps (d.propertiesField.getD [])
      = [(defaultPropertyName, [])] := by
    rcases hd with h | h <;> rw [h] <;> rfl
  constructor
  · unfold load_user_data
    rw [if_neg hu]
    exact hdec
  · unfold load_user_data
    rw [if_neg hu]
    exact hdec

/-- Witness for Claim C4 at username `"carol"` with a document that
has no `properties` key. -/
theorem decode_absent_or_empty_properties_heals_witness :
    (load_user_data "carol"
        ⟨true, RemoteResponse.success
          [Row.dictRow (some (RemoteVal.dict ⟨"carol", none⟩))], none⟩).1
      = [(defaultPropertyName, [])]
    ∧ (load_user_data "carol"
        ⟨false, RemoteResponse.success [], some ⟨"carol", none⟩⟩).1
      = [(defaultPropertyName, [])] :=
  decode_absent_or_empty_properties_heals "carol" (by decide)
    ⟨"carol", none⟩ (Or.inl rfl) none (RemoteResponse.success [])

/-- Claim C5: any failure raised inside the remote backend — client
construction, transport, auth, server — is caught by
`load_user_data_remote` and `save_user_data_remote` and converted to a
plain value: `none` for load and `false` for save.  Both functions are
total functions into exception-free result types, so no exception from
the remote path reaches the callers `load_user_data` /
`save_user_data`. -/
theorem remote_failures_converted_to_values (e : String) :
    load_user_data_remote (RemoteResponse.raise e) = none
    ∧ save_user_data_remote (RemoteSaveResponse.raise e) = false :=
  ⟨rfl, rfl⟩

/-- Claim C6: every reachable logged-in session state has at least one
property; deleting the current property when it is the only one is
refused (the delete control only exists with more than one property,
modelled as `removeCurrentProperty` returning `none`), leaving the
ledger unchanged; and when the removal succeeds, the current-property
pointer is repointed to the first remaining key. -/
theorem reachable_ledger_invariant_and_remove (s : Session)
    (hs : Reachable s) :
    1 ≤ s.properties.length
    ∧ (s.properties.length = 1 → removeCurrentProperty s = none)
    ∧ (∀ s', removeCurrentProperty s = some s' →
        s'.currentProperty = firstKey s'.properties
        ∧ s'.properties.length + 1 = s.properties.length) := by
  have inv := reachable_sessionInv hs
  refine ⟨inv.1, ?_, ?_⟩
  · intro h1
    unfold removeCurrentProperty
    rw [if_neg (by omega)]
  · intro s' hrem
    unfold removeCurrentProperty at hrem
    split at hrem
    case isTrue hlen =>
      injection hrem with hs'
      obtain ⟨pair, hmem, hpair⟩ := List.any_eq_true.mp inv.2
      constructor
      · rw [← hs']
      · rw [← hs']
        simpa using List.length_eraseP_add_one hmem hpair
    case isFalse => exact absurd hrem (by simp)

/-- Witness for Claim C6 at the post-login state of a new user
`"bob"` with no remote configured and no local file: the singleton
invariant holds and the removal is refused. -/
theorem reachable_ledger_invariant_witness :
    1 ≤ (initialSession "bob"
        ⟨false, RemoteResponse.success [], none⟩).properties.length
    ∧ removeCurrentProperty
        (initialSession "bob" ⟨false, RemoteResponse.success [], none⟩)
      = none :=
  ⟨(reachable_ledger_invariant_and_remove _
      (Reachable.init "bob" ⟨false, RemoteResponse.success [], none⟩
        (by decide))).1,
   (reachable_ledger_invariant_and_remove _
      (Reachable.init "bob" ⟨false, RemoteResponse.success [], none⟩
        (by decide))).2.1 (by decide)⟩

/-- Claim C7: submitting an expense with `amount ≤ 0` is rejected
(`金额必须大于0`), leaving the session — in particular the current
property's expense list — unchanged and triggering no save; with
`amount > 0` the record is appended at the end of the current
property's ordered sequence and a save is triggered. -/
theorem addExpense_amount_guard (s : Session) (r : ExpenseRecord) :
    (r.amount ≤ 0 → addExpense s r = (s, false))
    ∧ (0 < r.amount →
        (addExpense s r).2 = true
        ∧ (addExpense s r).1.currentProperty = s.currentProperty
        ∧ lookupPropD (addExpense s r).1.properties s.currentProperty
            = lookupPropD s.properties s.currentProperty ++ [r]) := by
  constructor
  · intro hle
    unfold addExpense
    rw [if_neg (not_lt.mpr hle)]
  · intro hpos
    unfold addExpense
    rw [if_pos hpos]
    refine ⟨rfl, rfl, ?_⟩
    show lookupPropD (setProp (ensureCurrent s) s.currentProperty
        (lookupPropD (ensureCurrent s) s.currentProperty ++ [r]))
        s.currentProperty
      = lookupPropD s.properties s.currentProperty ++ [r]
    rw [lookupPropD_setProp_self, lookupPropD_ensureCurrent]

/-- Witness for Claim C7 on a fresh default session: amount `-5` and
amount `0` are rejected without change, amount `5000` is appended. -/
theorem addExpense_amount_guard_witness :
    addExpense ⟨[(defaultPropertyName, [])], defaultPropertyName⟩
        ⟨"2024-01-01", "契税", -5, ""⟩
      = (⟨[(defaultPropertyName, [])], defaultPropertyName⟩, false)
    ∧ addExpense ⟨[(defaultPropertyName, [])], defaultPropertyName⟩
        ⟨"2024-01-01", "契税", 0, ""⟩
      = (⟨[(defaultPropertyName, [])], defaultPropertyName⟩, false)
    ∧ lookupPropD
        (addExpense ⟨[(defaultPropertyName, [])], defaultPropertyName⟩
          ⟨"2024-01-01", "契税", 5000, ""⟩).1.properties
        defaultPropertyName
      = [⟨"2024-01-01", "契税", 5000, ""⟩] :=
  ⟨(addExpense_amount_guard _ _).1 (by norm_num),
   (addExpense_amount_guard _ _).1 (by norm_num),
   ((addExpense_amount_guard
      ⟨[(defaultPropertyName, [])], defaultPropertyName⟩
      ⟨"2024-01-01", "契税", 5000, ""⟩).2 (by norm_num)).2.2⟩

/-- Claim C8: for every ledger with at least one property, decoding
the document written by the save path yields the ledger back —
username, property insertion order and per-property expense order all
preserved (equality of ordered association lists); the same holds for
the `properties` value produced by the local-load and remote-load
decode steps. -/
theorem decode_encode_roundtrip (L : Ledger) (hL : L.properties ≠ []) :
    decodeLedger (encodeLedger L) = L
    ∧ load_local (some (encodeLedger L)) = L.properties
    ∧ decodeRemoteVal (RemoteVal.dict (encodeLedger L)) = L.properties := by
  obtain ⟨u, m⟩ := L
  have hm : m ≠ [] := hL
  have h : healProps m = m := by
    unfold healProps
    rw [if_neg hm]
  refine ⟨?_, ?_, ?_⟩
  · show (⟨u, healProps m⟩ : Ledger) = ⟨u, m⟩
    rw [h]
  · show healProps m = m
    exact h
  · show healProps m = m
    exact h

/-- Witness for Claim C8 on a two-property ledger carrying one
expense record, checking order-preserving round trip. -/
theorem decode_encode_roundtrip_witness :
    decodeLedger (encodeLedger
        ⟨"bob", [(defaultPropertyName, [⟨"2024-01-01", "契税", 5000, ""⟩]),
                 ("房B", [])]⟩)
      = ⟨"bob", [(defaultPropertyName, [⟨"2024-01-01", "契税", 5000, ""⟩]),
                 ("房B", [])]⟩ :=
  (decode_encode_roundtrip _ (by decide)).1

/-- Claim C9: a first-time username with Remote not configured and no
local file loads as the fresh default ledger: exactly one property,
with a non-empty default name and an empty expense list (after
consulting only the Local backend). -/
theorem load_new_user_default_ledger (u : String) (hu : u ≠ "")
    (rr : RemoteResponse) :
    load_user_data u ⟨false, rr, none⟩
        = ([(defaultPropertyName, [])], [Effect.localLoad u])
      ∧ ([(defaultPropertyName, [])] : PropMap).length = 1
      ∧ defaultPropertyName ≠ "" := by
  refine ⟨?_, rfl, by decide⟩
  unfold load_user_data
  rw [if_neg hu]
  rfl

/-- Witness for Claim C9 at username `"bob"`. -/
theorem load_new_user_default_ledger_witness :
    load_user_data "bob" ⟨false, RemoteResponse.success [], none⟩
        = ([(defaultPropertyName, [])], [Effect.localLoad "bob"])
      ∧ ([(defaultPropertyName, [])] : PropMap).length = 1
      ∧ defaultPropertyName ≠ "" :=
  load_new_user_default_ledger "bob" (by decide) (RemoteResponse.success [])

/-- Claim C10: with an empty (falsy) username, `save_user_data`
performs no backend effect at all — both the local file store and the
remote store are unchanged — and `load_user_data` returns the default
one-property ledger without consulting either backend (its effect list
is empty and its result is the same for every environment). -/
theorem empty_username_noop (env : LoadEnv) (senv : SaveEnv)
    (props : PropMap) (ls : LocalStore) (rs : RemoteStore) :
    load_user_data "" env = ([(defaultPropertyName, [])], [])
    ∧ save_user_data "" props senv = ([], none)
    ∧ applyEffectsLocal ls (save_user_data "" props senv).1 = ls
    ∧ applyEffectsRemote rs (save_user_data "" props senv).1 = rs := by
  have hsave : save_user_data "" props senv = ([], none) := by
    unfold save_user_data
    rw [if_pos rfl]
  refine ⟨?_, hsave, by rw [hsave]; rfl, by rw [hsave]; rfl⟩
  unfold load_user_data
  rw [if_pos rfl]

end RealEstateLedger
